import Mathlib

/-!
Verification of the RTL tool-orchestration layer: category managers
(lint / simulation / synthesis), tool adapters, and their output parsers.

The embedding mirrors the TypeScript sources:
  * shared result types (`src/rtl/types.ts`),
  * the `Manager` registry with `selectTool` (identical in `LintManager`,
    `SimulationManager`, `SynthesisManager`),
  * the manager-level `lint` / `simulate` / `synthesize` wrappers,
  * the `IcarusSim` compile/simulate state machine and pass/fail detection,
  * the per-adapter lint-output line parsers (Verilator, slang, Verible).

External process execution is modelled by passing the process outcome as an
explicit argument; a thrown JS exception is modelled as `Except.error msg`
carrying `error.message`.  JS `number` fields that no claim computes with are
modelled as `Int`; optional JS fields are `Option`.
-/

/-- Severity vocabulary shared by all diagnostics (`'error'|'warning'|'info'|'hint'`). -/
inductive Severity where
  | error
  | warning
  | info
  | hint
deriving DecidableEq, Repr

/-- `ToolResult` base (src/rtl/types.ts): success, optional stdout/stderr/exitCode/errors. -/
structure ToolResult where
  success : Bool
  stdout : Option String := none
  stderr : Option String := none
  exitCode : Option Int := none
  errors : Option (List String) := none
deriving DecidableEq, Repr

/-- `LintWarning` (src/rtl/types.ts). -/
structure LintWarning where
  file : String
  line : Nat
  column : Option Nat := none
  code : String
  message : String
  severity : Severity
deriving DecidableEq, Repr

/-- `LintError` (src/rtl/types.ts); its `severity` is always `error` in the source. -/
structure LintError where
  file : String
  line : Nat
  column : Option Nat := none
  code : String
  message : String
  severity : Severity
deriving DecidableEq, Repr

/-- `LintResult extends ToolResult` with `warnings` and `lintErrors`
(the latter renamed in the source to avoid clashing with `ToolResult.errors`). -/
structure LintResult extends ToolResult where
  warnings : List LintWarning
  lintErrors : List LintError
deriving DecidableEq, Repr

/-- `CoverageResult` (src/rtl/types.ts). -/
structure CoverageResult where
  line : Int
  toggle : Int
  fsm : Int
  functional : Option Int := none
deriving DecidableEq, Repr

/-- `SimulationResult extends ToolResult` (src/rtl/types.ts). -/
structure SimulationResult extends ToolResult where
  passed : Bool
  coverage : Option CoverageResult := none
  waveform : Option String := none
deriving DecidableEq, Repr

/-- `CompileResult extends ToolResult` (src/rtl/tools/types.ts). -/
structure CompileResult extends ToolResult where
  executable : Option String := none
deriving DecidableEq, Repr

/-- Critical-path record inside `TimingResult`; the source field `end` is a Lean
keyword and is rendered `endPoint`. -/
structure CriticalPath where
  start : String
  endPoint : String
  delay : Int
deriving DecidableEq, Repr

/-- `TimingResult` (src/rtl/types.ts). -/
structure TimingResult where
  criticalPath : CriticalPath
  slack : Int
  frequency : Int
deriving DecidableEq, Repr

/-- Area part of `PPAResult`. -/
structure PPAArea where
  cells : Int
  area : Int
deriving DecidableEq, Repr

/-- Power part of `PPAResult`. -/
structure PPAPower where
  dynamic : Int
  static : Int
  total : Int
deriving DecidableEq, Repr

/-- Performance part of `PPAResult`. -/
structure PPAPerformance where
  frequency : Int
deriving DecidableEq, Repr

/-- `PPAResult` (src/rtl/types.ts). -/
structure PPAResult where
  area : PPAArea
  power : PPAPower
  performance : PPAPerformance
deriving DecidableEq, Repr

/-- `SynthesisResult extends ToolResult` (src/rtl/types.ts). -/
structure SynthesisResult extends ToolResult where
  netlist : Option String := none
  timing : Option TimingResult := none
  ppa : Option PPAResult := none
deriving DecidableEq, Repr

/-- JS truthiness of an optional string: `undefined` and `""` are falsy. -/
def jsTruthyStr : Option String → Bool
  | none => false
  | some s => s != ""

/-- JS `a || b` for an optional string `a` and a string default `b`. -/
def jsOrStr (a : Option String) (b : String) : String :=
  match a with
  | some s => if s != "" then s else b
  | none => b

/-- Characters matched by the JS regex class `\w` (ASCII letters, digits, underscore). -/
def wordChar (c : Char) : Bool := c.isAlphanum || c = '_'

/-- Characters matched by the JS regex class `\d`. -/
def digitChar (c : Char) : Bool := c.isDigit

/-- Characters matched by the JS regex class `\s` (ASCII whitespace forms;
the Unicode space code points never occur in the outputs considered here). -/
def wsChar (c : Char) : Bool :=
  c = ' ' || c = '\t' || c = '\n' || c = '\r' || c = Char.ofNat 11 || c = Char.ofNat 12

/-- Characters matched by the JS regex `.` (anything except a line terminator). -/
def dotChar (c : Char) : Bool :=
  !(c = '\n' || c = '\r' || c = Char.ofNat 0x2028 || c = Char.ofNat 0x2029)

/-- One token of an anchored JS regex built from literals, capturing
alternations of literals, and greedy/lazy one-or-more character classes.
Every line grammar in the lint/simulation adapters has this shape. -/
inductive Tok where
  | lit (s : List Char)
  | alt (alts : List (List Char))
  | plusGreedy (cls : Char → Bool) (cap : Bool)
  | plusLazy (cls : Char → Bool) (cap : Bool)

/-- First `some` produced by `f` over `xs`, in order. -/
def firstSome {α β : Type} : List α → (α → Option β) → Option β
  | [], _ => none
  | x :: xs, f =>
    match f x with
    | some b => some b
    | none => firstSome xs f

/-- Length of the maximal prefix of `s` whose characters satisfy `cls`. -/
def maxRun (cls : Char → Bool) : List Char → Nat
  | [] => 0
  | c :: cs => if cls c then maxRun cls cs + 1 else 0

/-- Candidate match lengths for a greedy `+`, longest first: `[m, m-1, …, 1]`. -/
def greedyLens (m : Nat) : List Nat := (List.range m).map (fun i => m - i)

/-- Candidate match lengths for a lazy `+?`, shortest first: `[1, 2, …, m]`. -/
def lazyLens (m : Nat) : List Nat := (List.range m).map (fun i => i + 1)

/-- Backtracking matcher for an anchored token pattern over `s`.
Returns the captured substrings in token order exactly as the JS regex engine
does for these patterns: each token tries its candidate consumptions in
preference order (alternatives left to right, greedy longest first, lazy
shortest first) and succeeds only if the rest of the pattern matches the rest
of the input, with `$` enforced by requiring the final remainder to be empty. -/
def matchToks : List Tok → List Char → Option (List (List Char))
  | [], s => if s.isEmpty then some [] else none
  | Tok.lit l :: rest, s =>
    if l.isPrefixOf s then matchToks rest (s.drop l.length) else none
  | Tok.alt alts :: rest, s =>
    firstSome alts (fun a =>
      if a.isPrefixOf s then (matchToks rest (s.drop a.length)).map (fun caps => a :: caps)
      else none)
  | Tok.plusGreedy cls cap :: rest, s =>
    firstSome (greedyLens (maxRun cls s)) (fun k =>
      (matchToks rest (s.drop k)).map (fun caps => if cap then s.take k :: caps else caps))
  | Tok.plusLazy cls cap :: rest, s =>
    firstSome (lazyLens (maxRun cls s)) (fun k =>
      (matchToks rest (s.drop k)).map (fun caps => if cap then s.take k :: caps else caps))

/-- JS `parseInt(s, 10)` on a string of decimal digits. -/
def digitsToNat (cs : List Char) : Nat :=
  cs.foldl (fun n c => n * 10 + (c.toNat - 48)) 0

/-- Characters removed by JS `String.prototype.trim`. -/
def jsTrimChar (c : Char) : Bool :=
  wsChar c || c = Char.ofNat 0xa0 || c = Char.ofNat 0xfeff

/-- JS `s.trim()` over the character list of `s`. -/
def jsTrim (cs : List Char) : List Char :=
  ((cs.dropWhile jsTrimChar).reverse.dropWhile jsTrimChar).reverse

/-- JS `output.split('\n')`: split at every newline, keeping empty segments. -/
def splitOnNl : List Char → List (List Char)
  | [] => [[]]
  | c :: cs =>
    let rest := splitOnNl cs
    if c = '\n' then [] :: rest
    else
      match rest with
      | [] => [[c]]
      | l :: ls => (c :: l) :: ls

/-- Substring test: does `s` contain `pat` as a contiguous run? -/
def containsSub (pat : List Char) : List Char → Bool
  | [] => pat.isEmpty
  | c :: cs => pat.isPrefixOf (c :: cs) || containsSub pat cs

/-- JS `/pat/i.test(s)` for a literal pattern: case-insensitive substring test. -/
def testCI (pat : String) (s : String) : Bool :=
  containsSub (pat.data.map Char.toLower) (s.data.map Char.toLower)

/-- Line pattern of `VerilatorLint.parseLintOutput`
(src/rtl/tools/lint/verilator.ts):
percent sign, `(Warning|Error)`, dash, `(\w+)`, colon, `\s+`, lazy `(.+?)`,
`:(\d+):(\d+):`, `\s+`, greedy `(.+)`, anchored at both ends. -/
def verilatorLintPattern : List Tok :=
  [Tok.lit "%".data, Tok.alt ["Warning".data, "Error".data], Tok.lit "-".data,
   Tok.plusGreedy wordChar true, Tok.lit ":".data, Tok.plusGreedy wsChar false,
   Tok.plusLazy dotChar true, Tok.lit ":".data, Tok.plusGreedy digitChar true,
   Tok.lit ":".data, Tok.plusGreedy digitChar true, Tok.lit ":".data,
   Tok.plusGreedy wsChar false, Tok.plusGreedy dotChar true]

/-- Line pattern of `SlangLint.parseLintOutput` (src/rtl/tools/lint/slang.ts):
lazy `(.+?)`, `:(\d+):(\d+):`, `\s+`, `(error|warning|note)`, colon, `\s+`,
greedy `(.+)`, anchored at both ends. -/
def slangLintPattern : List Tok :=
  [Tok.plusLazy dotChar true, Tok.lit ":".data, Tok.plusGreedy digitChar true,
   Tok.lit ":".data, Tok.plusGreedy digitChar true, Tok.lit ":".data,
   Tok.plusGreedy wsChar false, Tok.alt ["error".data, "warning".data, "note".data],
   Tok.lit ":".data, Tok.plusGreedy wsChar false, Tok.plusGreedy dotChar true]

/-- Line pattern of `VeribleLint.parseLintOutput` (src/unnamed/part_007):
lazy `(.+?)`, `:(\d+):(\d+):`, `\s+`, lazy `(.+?)`, `\s+`, `\[`, lazy `(.+?)`,
`\]`, anchored at both ends. -/
def veribleLintPattern : List Tok :=
  [Tok.plusLazy dotChar true, Tok.lit ":".data, Tok.plusGreedy digitChar true,
   Tok.lit ":".data, Tok.plusGreedy digitChar true, Tok.lit ":".data,
   Tok.plusGreedy wsChar false, Tok.plusLazy dotChar true,
   Tok.plusGreedy wsChar false, Tok.lit "[".data, Tok.plusLazy dotChar true,
   Tok.lit "]".data]

/-- Loop body of `VerilatorLint.parseLintOutput` for a single line: match the
Verilator message format; a `Warning` severity token yields a warning, an
`Error` token an error; line/column via `parseInt`, message trimmed. -/
def VerilatorLint.parseLine (line : List Char) : Option (Sum LintWarning LintError) :=
  match matchToks verilatorLintPattern line with
  | some [sev, code, file, lineStr, colStr, msg] =>
    if sev = "Warning".data then
      some (Sum.inl
        { file := String.mk file, line := digitsToNat lineStr,
          column := some (digitsToNat colStr), code := String.mk code,
          message := String.mk (jsTrim msg), severity := Severity.warning })
    else
      some (Sum.inr
        { file := String.mk file, line := digitsToNat lineStr,
          column := some (digitsToNat colStr), code := String.mk code,
          message := String.mk (jsTrim msg), severity := Severity.error })
  | _ => none

/-- Loop body of `SlangLint.parseLintOutput` for a single line: `error` goes to
the error list, `warning` and `note` go to the warning list (`note` mapped to
`info`); the `code` field is the literal `"slang"`. -/
def SlangLint.parseLine (line : List Char) : Option (Sum LintWarning LintError) :=
  match matchToks slangLintPattern line with
  | some [file, lineStr, colStr, sev, msg] =>
    if sev = "error".data then
      some (Sum.inr
        { file := String.mk file, line := digitsToNat lineStr,
          column := some (digitsToNat colStr), code := "slang",
          message := String.mk (jsTrim msg), severity := Severity.error })
    else
      some (Sum.inl
        { file := String.mk file, line := digitsToNat lineStr,
          column := some (digitsToNat colStr), code := "slang",
          message := String.mk (jsTrim msg),
          severity := if sev = "warning".data then Severity.warning else Severity.info })
  | _ => none

/-- Loop body of `VeribleLint.parseLintOutput` for a single line: a message
whose lower-cased text contains `"error"` is promoted to an error, everything
else is a warning. -/
def VeribleLint.parseLine (line : List Char) : Option (Sum LintWarning LintError) :=
  match matchToks veribleLintPattern line with
  | some [file, lineStr, colStr, msg, code] =>
    if containsSub "error".data (msg.map Char.toLower) then
      some (Sum.inr
        { file := String.mk file, line := digitsToNat lineStr,
          column := some (digitsToNat colStr), code := String.mk code,
          message := String.mk (jsTrim msg), severity := Severity.error })
    else
      some (Sum.inl
        { file := String.mk file, line := digitsToNat lineStr,
          column := some (digitsToNat colStr), code := String.mk code,
          message := String.mk (jsTrim msg), severity := Severity.warning })
  | _ => none

/-- Shared shape of every `parseLintOutput` loop: fold the parsed lines into
the `warnings` and `errors` arrays in line order (each adapter repeats this
loop verbatim around its own line pattern). -/
def foldDiags (parseLine : List Char → Option (Sum LintWarning LintError))
    (lines : List (List Char)) : List LintWarning × List LintError :=
  lines.foldl
    (fun acc line =>
      match parseLine line with
      | some (Sum.inl w) => (acc.1 ++ [w], acc.2)
      | some (Sum.inr e) => (acc.1, acc.2 ++ [e])
      | none => acc)
    ([], [])

/-- `VerilatorLint.parseLintOutput`: combine stdout and stderr, split into
lines, parse each line, and succeed exactly when no error was parsed. -/
def VerilatorLint.parseLintOutput (result : ToolResult) : LintResult :=
  let output := (result.stdout.getD "").data ++ (result.stderr.getD "").data
  let acc := foldDiags VerilatorLint.parseLine (splitOnNl output)
  { success := acc.2.length == 0, warnings := acc.1, lintErrors := acc.2,
    stdout := result.stdout, stderr := result.stderr }

/-- `SlangLint.parseLintOutput` (same shape as the Verilator one). -/
def SlangLint.parseLintOutput (result : ToolResult) : LintResult :=
  let output := (result.stdout.getD "").data ++ (result.stderr.getD "").data
  let acc := foldDiags SlangLint.parseLine (splitOnNl output)
  { success := acc.2.length == 0, warnings := acc.1, lintErrors := acc.2,
    stdout := result.stdout, stderr := result.stderr }

/-- `VeribleLint.parseLintOutput` (same shape as the Verilator one). -/
def VeribleLint.parseLintOutput (result : ToolResult) : LintResult :=
  let output := (result.stdout.getD "").data ++ (result.stderr.getD "").data
  let acc := foldDiags VeribleLint.parseLine (splitOnNl output)
  { success := acc.2.length == 0, warnings := acc.1, lintErrors := acc.2,
    stdout := result.stdout, stderr := result.stderr }

/-- Pass patterns of `IcarusSim.checkSimulationPassed`
(src/rtl/tools/simulation/iverilog.ts), all tested case-insensitively. -/
def icarusPassPatterns : List String :=
  ["test passed", "all tests passed", "simulation passed", "*** PASS ***"]

/-- Failure patterns of `IcarusSim.checkSimulationPassed`. -/
def icarusFailPatterns : List String :=
  ["test failed", "error:", "assertion failed", "*** FAIL ***"]

/-- Pass patterns of `VerilatorSim.checkSimulationPassed`
(src/unnamed/part_008), identical to the Icarus list. -/
def verilatorPassPatterns : List String :=
  ["test passed", "all tests passed", "simulation passed", "*** PASS ***"]

/-- Failure patterns of `VerilatorSim.checkSimulationPassed`. -/
def verilatorFailPatterns : List String :=
  ["test failed", "error:", "assertion failed", "*** FAIL ***"]

/-- `IcarusSim.checkSimulationPassed`: check the failure patterns first and
return `false` on any match; otherwise check the pass patterns and return
`true` on a match; with no match of either kind, default to `true`. -/
def IcarusSim.checkSimulationPassed (output : String) : Bool :=
  if icarusFailPatterns.any (fun p => testCI p output) then false
  else if icarusPassPatterns.any (fun p => testCI p output) then true
  else true

/-- `VerilatorSim.checkSimulationPassed` (textually identical to the Icarus
implementation, over its own copies of the pattern lists). -/
def VerilatorSim.checkSimulationPassed (output : String) : Bool :=
  if verilatorFailPatterns.any (fun p => testCI p output) then false
  else if verilatorPassPatterns.any (fun p => testCI p output) then true
  else true

/-- Successful outcome of an `execAsync` call: captured stdout and stderr. -/
structure ExecOk where
  stdout : String
  stderr : String
deriving DecidableEq, Repr

/-- Thrown outcome of an `execAsync` call: the error object's optional
`stdout`/`stderr` captures and its `message`. -/
structure ExecErr where
  stdout : Option String := none
  stderr : Option String := none
  message : String
deriving DecidableEq, Repr

/-- Instance state of `IcarusSim`: the single `executable` field coupling a
compile call to the following simulate call. -/
structure IcarusSim where
  executable : Option String := none
deriving DecidableEq, Repr

/-- `IcarusSim.compile`: the method assigns `this.executable = 'a.out'`
unconditionally before running `iverilog`; the compile process outcome is the
`runResult` argument.  Returns the updated instance state and the
`CompileResult`. -/
def IcarusSim.compile (st : IcarusSim) (runResult : ToolResult) :
    IcarusSim × CompileResult :=
  let st' : IcarusSim := { st with executable := some "a.out" }
  if !runResult.success then
    (st', { success := false, errors := runResult.errors, stderr := runResult.stderr })
  else
    (st', { success := true, executable := st'.executable,
            stdout := runResult.stdout, stderr := runResult.stderr })

/-- Body of `IcarusSim.simulate` past the compiled-executable guard: run the
`vvp` process (outcome passed as `execOutcome`), derive pass/fail from stdout
on success, or fold the thrown error using JS `||` defaults. -/
def IcarusSim.runSimExecutable (execOutcome : Except ExecErr ExecOk) :
    SimulationResult :=
  match execOutcome with
  | Except.ok o =>
    { success := true, passed := IcarusSim.checkSimulationPassed o.stdout,
      stdout := some o.stdout, stderr := some o.stderr, waveform := some "dump.vcd" }
  | Except.error e =>
    { success := false, passed := false, stdout := some (jsOrStr e.stdout ""),
      stderr := some (jsOrStr e.stderr e.message) }

/-- `IcarusSim.simulate`: guard on `!this.executable` (JS truthiness), then run
the stored executable. -/
def IcarusSim.simulate (st : IcarusSim) (execOutcome : Except ExecErr ExecOk) :
    SimulationResult :=
  if !jsTruthyStr st.executable then
    { success := false, passed := false,
      stderr := some "Design not compiled. Call compile() first." }
  else
    IcarusSim.runSimExecutable execOutcome

/-- Lint adapter as seen by `LintManager`: the probed `isInstalled` answer and
the `lint` category method (`Except.error msg` models a thrown exception). -/
structure LintTool where
  installed : Bool
  lint : List String → Except String LintResult

/-- Simulation adapter as seen by `SimulationManager`: `isInstalled`,
`compile`, `simulate`, and the optional `collectCoverage` capability. -/
structure SimulationTool where
  installed : Bool
  compile : List String → Except String CompileResult
  simulate : String → Option (List String) → Except String SimulationResult
  collectCoverage : Option (Unit → Except String CoverageResult) := none

/-- Synthesis adapter as seen by `SynthesisManager`. -/
structure SynthesisTool where
  installed : Bool
  synthesize : List String → String → Except String SynthesisResult
  analyzeTiming : String → Except String TimingResult
  estimatePPA : String → Except String PPAResult

/-- Category manager registry: a name→adapter map in insertion order plus the
mutable `preferredTool` name.  `LintManager`, `SimulationManager` and
`SynthesisManager` all carry exactly these two fields. -/
structure Manager (α : Type) where
  tools : List (String × α)
  preferredTool : Option String := none

/-- JS `Map.prototype.set`: overwrite in place if the key exists (keeping its
original position), else append. -/
def mapSet {α : Type} (tools : List (String × α)) (name : String) (tool : α) :
    List (String × α) :=
  match tools with
  | [] => [(name, tool)]
  | (n, t) :: rest =>
    if n = name then (n, tool) :: rest else (n, t) :: mapSet rest name tool

/-- JS `Map.prototype.get`: first (only) binding of `name`. -/
def mapGet? {α : Type} (tools : List (String × α)) (name : String) : Option α :=
  match tools with
  | [] => none
  | (n, t) :: rest => if n = name then some t else mapGet? rest name

/-- `register(name, tool)` of the three managers. -/
def Manager.register {α : Type} (m : Manager α) (name : String) (tool : α) :
    Manager α :=
  { m with tools := mapSet m.tools name tool }

/-- First adapter in registration order whose probe reports installed
(the step-3 loop of `selectTool`). -/
def selectFirstInstalled {α : Type} (tools : List (String × α)) (inst : α → Bool) :
    Option α :=
  match tools with
  | [] => none
  | (_, t) :: rest => if inst t then some t else selectFirstInstalled rest inst

/-- `selectTool` as written identically in `LintManager`, `SimulationManager`
and `SynthesisManager`: step 1 the user override, step 2 the manager's
preferred name, step 3 the first installed adapter, else `null`.  Steps 1 and 2
guard with JS truthiness (`name && this.tools.has(name)`), so the empty string
is treated as absent; a registered-but-not-installed name falls through to the
next step. -/
def Manager.selectTool {α : Type} (m : Manager α) (inst : α → Bool)
    (preferred : Option String) : Option α :=
  let step3 := selectFirstInstalled m.tools inst
  let step2 :=
    match m.preferredTool with
    | some p =>
      if p != "" then
        match mapGet? m.tools p with
        | some tool => if inst tool then some tool else step3
        | none => step3
      else step3
    | none => step3
  match preferred with
  | some p =>
    if p != "" then
      match mapGet? m.tools p with
      | some tool => if inst tool then some tool else step2
      | none => step2
    else step2
  | none => step2

/-- `LintManager` instance (registry of lint adapters). -/
abbrev LintManager := Manager LintTool

/-- `SimulationManager` instance. -/
abbrev SimulationManager := Manager SimulationTool

/-- `SynthesisManager` instance. -/
abbrev SynthesisManager := Manager SynthesisTool

/-- `LintManager.lint(files, preferredTool?)`: select a tool; with none, return
the literal no-tool failure; otherwise delegate and fold a thrown adapter
exception into a failure result carrying `error.message` as stderr. -/
def LintManager.lint (m : LintManager) (files : List String)
    (preferredTool : Option String) : LintResult :=
  match m.selectTool LintTool.installed preferredTool with
  | none =>
    { success := false, warnings := [], lintErrors := [],
      stderr := some "No lint tool available" }
  | some tool =>
    match tool.lint files with
    | Except.ok r => r
    | Except.error msg =>
      { success := false, warnings := [], lintErrors := [], stderr := some msg }

/-- Try-block body of `SimulationManager.simulate` once a tool is selected:
compile; on reported compile failure return the compile failure immediately
(the adapter's simulate step does not appear in this branch); otherwise
simulate, then attempt coverage collection whose own failure is only logged. -/
def SimulationManager.simulateBody (tool : SimulationTool) (files : List String)
    (testbench : String) (args : Option (List String)) :
    Except String SimulationResult :=
  match tool.compile files with
  | Except.error e => Except.error e
  | Except.ok compileResult =>
    if !compileResult.success then
      Except.ok
        { success := false, passed := false,
          errors := compileResult.errors, stderr := compileResult.stderr }
    else
      match tool.simulate testbench args with
      | Except.error e => Except.error e
      | Except.ok simResult =>
        Except.ok
          (match tool.collectCoverage with
           | some cc =>
             if simResult.success then
               match cc () with
               | Except.ok cov => { simResult with coverage := some cov }
               | Except.error _ => simResult
             else simResult
           | none => simResult)

/-- `SimulationManager.simulate(files, testbench, args?, preferredTool?)`:
select a tool; with none, return the literal no-tool failure; otherwise run the
try-block body, folding a thrown exception into a failure result. -/
def SimulationManager.simulate (m : SimulationManager) (files : List String)
    (testbench : String) (args : Option (List String))
    (preferredTool : Option String) : SimulationResult :=
  match m.selectTool SimulationTool.installed preferredTool with
  | none =>
    { success := false, passed := false,
      stderr := some "No simulation tool available" }
  | some tool =>
    match SimulationManager.simulateBody tool files testbench args with
    | Except.ok r => r
    | Except.error msg =>
      { success := false, passed := false, stderr := some msg }

/-- Try-block body of `SynthesisManager.synthesize` once a tool is selected:
synthesize; on success with a truthy netlist, attempt `analyzeTiming` then
`estimatePPA` inside their own try whose failure leaves the remaining
enrichment fields unset and is only logged. -/
def SynthesisManager.synthesizeBody (tool : SynthesisTool) (design : List String)
    (constraints : String) : Except String SynthesisResult :=
  match tool.synthesize design constraints with
  | Except.error e => Except.error e
  | Except.ok result =>
    if result.success then
      match result.netlist with
      | some nl =>
        if nl != "" then
          match tool.analyzeTiming nl with
          | Except.error _ => Except.ok result
          | Except.ok timing =>
            match tool.estimatePPA nl with
            | Except.error _ => Except.ok { result with timing := some timing }
            | Except.ok ppa =>
              Except.ok { result with timing := some timing, ppa := some ppa }
        else Except.ok result
      | none => Except.ok result
    else Except.ok result

/-- `SynthesisManager.synthesize(design, constraints, preferredTool?)`. -/
def SynthesisManager.synthesize (m : SynthesisManager) (design : List String)
    (constraints : String) (preferredTool : Option String) : SynthesisResult :=
  match m.selectTool SynthesisTool.installed preferredTool with
  | none => { success := false, stderr := some "No synthesis tool available" }
  | some tool =>
    match SynthesisManager.synthesizeBody tool design constraints with
    | Except.ok r => r
    | Except.error msg => { success := false, stderr := some msg }

/-- Modelled from the spec's words (§4.2 selection precedence), step 1/2 probe:
the named adapter when it is registered and currently installed, else nothing. -/
def tryName {α : Type} (m : Manager α) (inst : α → Bool) :
    Option String → Option α
  | none => none
  | some p =>
    match mapGet? m.tools p with
    | some tool => if inst tool then some tool else none
    | none => none

/-- Modelled from the spec's words (§4.2): the override if registered and
installed, else the configured preferred name if registered and installed,
else the first registered installed adapter, else `null`.  Used as the
reference function `Manager.selectTool` is compared against. -/
def selectToolSpec {α : Type} (m : Manager α) (inst : α → Bool)
    (overrideName : Option String) : Option α :=
  match tryName m inst overrideName with
  | some tool => some tool
  | none =>
    match tryName m inst m.preferredTool with
    | some tool => some tool
    | none => selectFirstInstalled m.tools inst

/-- Modelled from the spec's words (§4.2 pass/fail detection): the simpler
function `no failure pattern matches`, which the claims compare
`checkSimulationPassed` against. -/
def checkSimulationPassedSpec (output : String) : Bool :=
  !(icarusFailPatterns.any (fun p => testCI p output))

theorem mapGet?_mem {α : Type} {tools : List (String × α)} {p : String} {t : α}
    (h : mapGet? tools p = some t) : (p, t) ∈ tools := by
  induction tools with
  | nil => simp [mapGet?] at h
  | cons hd tl ih =>
    cases hd with
    | mk n v =>
      unfold mapGet? at h
      by_cases hn : n = p
      · subst hn
        simp at h
        subst h
        exact List.mem_cons_self _ _
      · simp [hn] at h
        exact List.mem_cons_of_mem _ (ih h)

theorem selectFirstInstalled_eq_none {α : Type} {tools : List (String × α)}
    {inst : α → Bool} (h : ∀ p ∈ tools, inst p.2 = false) :
    selectFirstInstalled tools inst = none := by
  induction tools with
  | nil => rfl
  | cons hd tl ih =>
    cases hd with
    | mk n t =>
      have h1 : inst t = false := h (n, t) (List.mem_cons_self _ _)
      have h2 : ∀ p ∈ tl, inst p.2 = false := fun p hp => h p (List.mem_cons_of_mem _ hp)
      simp [selectFirstInstalled, h1, ih h2]

theorem selectTool_eq_none_of_uninstalled {α : Type} (m : Manager α)
    (inst : α → Bool) (ov : Option String)
    (h : ∀ p ∈ m.tools, inst p.2 = false) :
    m.selectTool inst ov = none := by
  have h3 : selectFirstInstalled m.tools inst = none := selectFirstInstalled_eq_none h
  have hinst : ∀ (p : String) (tool : α), mapGet? m.tools p = some tool → inst tool = false :=
    fun p tool hm => h (p, tool) (mapGet?_mem hm)
  simp only [Manager.selectTool]
  cases ov with
  | none =>
    cases hpt : m.preferredTool with
    | none => exact h3
    | some p =>
      cases hmg : mapGet? m.tools p with
      | none => simp [hmg, h3]
      | some tool => simp [hmg, hinst p tool hmg, h3]
  | some q =>
    cases hmgq : mapGet? m.tools q with
    | none =>
      cases hpt : m.preferredTool with
      | none => simp [hmgq, h3]
      | some p =>
        cases hmg : mapGet? m.tools p with
        | none => simp [hmgq, hmg, h3]
        | some tool => simp [hmgq, hmg, hinst p tool hmg, h3]
    | some toolq =>
      cases hpt : m.preferredTool with
      | none => simp [hmgq, hinst q toolq hmgq, h3]
      | some p =>
        cases hmg : mapGet? m.tools p with
        | none => simp [hmgq, hmg, hinst q toolq hmgq, h3]
        | some tool => simp [hmgq, hmg, hinst q toolq hmgq, hinst p tool hmg, h3]

/-- C9: for every output string, pass/fail detection returns `false` exactly
when some failure pattern matches: both adapters' `checkSimulationPassed` are
extensionally equal to the simpler function `no failure pattern matches`
(`checkSimulationPassedSpec`), so the pass-pattern list never influences the
result. -/
theorem checkSimulationPassed_eq_noFailureMatch :
    ∀ output : String,
      IcarusSim.checkSimulationPassed output = checkSimulationPassedSpec output ∧
      VerilatorSim.checkSimulationPassed output = checkSimulationPassedSpec output := by
  intro output
  have collapse : ∀ (a b : Bool), (if a then false else if b then true else true) = !a := by
    intro a b
    cases a <;> cases b <;> rfl
  constructor
  · simp only [IcarusSim.checkSimulationPassed, checkSimulationPassedSpec, collapse]
  · simp only [VerilatorSim.checkSimulationPassed, checkSimulationPassedSpec, collapse,
      verilatorFailPatterns, icarusFailPatterns]

/-- C4: an output that matches at least one failure pattern is reported as
`passed := false` by both adapters, regardless of any pass-pattern match (the
failure list is checked first and takes precedence). -/
theorem failPattern_forces_not_passed :
    ∀ output : String,
      (icarusFailPatterns.any (fun p => testCI p output) = true →
        IcarusSim.checkSimulationPassed output = false) ∧
      (verilatorFailPatterns.any (fun p => testCI p output) = true →
        VerilatorSim.checkSimulationPassed output = false) := by
  intro output
  constructor
  · intro h
    simp [IcarusSim.checkSimulationPassed, h]
  · intro h
    simp [VerilatorSim.checkSimulationPassed, h]

theorem failPattern_forces_not_passed_witness :
    icarusFailPatterns.any (fun p => testCI p "error: all tests passed") = true ∧
    icarusPassPatterns.any (fun p => testCI p "error: all tests passed") = true ∧
    IcarusSim.checkSimulationPassed "error: all tests passed" = false ∧
    VerilatorSim.checkSimulationPassed "error: all tests passed" = false :=
  ⟨by decide, by decide,
   (failPattern_forces_not_passed "error: all tests passed").1 (by decide),
   (failPattern_forces_not_passed "error: all tests passed").2 (by decide)⟩

/-- C8: `IcarusSim.compile` assigns the `executable` field unconditionally
before the compile process runs, so after any compile call — also a failing
one — `simulate` does not hit the `Design not compiled` guard but proceeds to
run the stored executable; the guard fires only on a fresh instance on which
compile was never called. -/
theorem icarus_compile_always_arms_simulate :
    (∀ (st : IcarusSim) (runResult : ToolResult),
       ((IcarusSim.compile st runResult).1).executable = some "a.out") ∧
    (∀ (st : IcarusSim) (runResult : ToolResult) (oracle : Except ExecErr ExecOk),
       IcarusSim.simulate (IcarusSim.compile st runResult).1 oracle =
         IcarusSim.runSimExecutable oracle) ∧
    (∀ oracle : Except ExecErr ExecOk,
       IcarusSim.simulate { executable := none } oracle =
         { success := false, passed := false,
           stderr := some "Design not compiled. Call compile() first." }) := by
  refine ⟨?_, ?_, ?_⟩
  · intro st r
    cases hr : r.success <;> simp [IcarusSim.compile, hr]
  · intro st r oracle
    cases hr : r.success <;>
      simp [IcarusSim.compile, IcarusSim.simulate, hr, jsTruthyStr]
  · intro oracle
    rfl

theorem selectTool_step2_eq {α : Type} (m : Manager α) (inst : α → Bool)
    (hp : m.preferredTool ≠ some "") :
    (match m.preferredTool with
      | some p =>
        if p != "" then
          match mapGet? m.tools p with
          | some tool => if inst tool then some tool else selectFirstInstalled m.tools inst
          | none => selectFirstInstalled m.tools inst
        else selectFirstInstalled m.tools inst
      | none => selectFirstInstalled m.tools inst) =
    (match tryName m inst m.preferredTool with
      | some tool => some tool
      | none => selectFirstInstalled m.tools inst) := by
  cases hpt : m.preferredTool with
  | none => rfl
  | some p =>
    have hpe : p ≠ "" := by
      intro h
      exact hp (by rw [hpt, h])
    have hne : (p != "") = true := bne_iff_ne.mpr hpe
    simp only [tryName, hne, if_true]
    cases hmg : mapGet? m.tools p with
    | none => rfl
    | some tool => cases hti : inst tool <;> simp [hti]

/-- C1 (amended): for every registry, installed-set, override and configured
preferred name — the empty-string name excluded, since the source's JS
truthiness guard treats `""` as absent — `selectTool` follows the spec's
precedence: the override if registered and installed, else the preferred name
if registered and installed, else the first registered installed adapter, else
`null` (`selectToolSpec`); and with no override and no preferred name set the
result is exactly the first installed adapter in registration order, else
`null`. -/
theorem selectTool_spec_refinement {α : Type} :
    (∀ (m : Manager α) (inst : α → Bool) (ov : Option String),
       ov ≠ some "" → m.preferredTool ≠ some "" →
       m.selectTool inst ov = selectToolSpec m inst ov) ∧
    (∀ (m : Manager α) (inst : α → Bool),
       m.preferredTool = none →
       m.selectTool inst none = selectFirstInstalled m.tools inst) := by
  have main : ∀ (m : Manager α) (inst : α → Bool) (ov : Option String),
      ov ≠ some "" → m.preferredTool ≠ some "" →
      m.selectTool inst ov = selectToolSpec m inst ov := by
    intro m inst ov hov hp
    have hstep2 := selectTool_step2_eq m inst hp
    simp only [Manager.selectTool, selectToolSpec]
    cases hov' : ov with
    | none => simpa [tryName] using hstep2
    | some q =>
      have hqe : q ≠ "" := by
        intro h
        exact hov (by rw [hov', h])
      have hne : (q != "") = true := bne_iff_ne.mpr hqe
      simp only [hne, if_true]
      cases hmg : mapGet? m.tools q with
      | none => simpa [tryName, hmg] using hstep2
      | some tool =>
        cases hti : inst tool with
        | true => simp [tryName, hmg, hti]
        | false => simpa [tryName, hmg, hti] using hstep2
  refine ⟨main, ?_⟩
  intro m inst hpt
  have := main m inst none (by simp) (by rw [hpt]; simp)
  rw [this]
  simp [selectToolSpec, tryName, hpt]

theorem selectTool_spec_refinement_witness :
    ((some "b" : Option String) ≠ some "" ∧
     (some "a" : Option String) ≠ some "" ∧
     Manager.selectTool ⟨[("a", 1), ("b", 2)], some "a"⟩ (fun n => n == 2) (some "b") =
       selectToolSpec ⟨[("a", 1), ("b", 2)], some "a"⟩ (fun n => n == 2) (some "b")) ∧
    Manager.selectTool (⟨[("a", 1), ("b", 2)], none⟩ : Manager Nat) (fun n => n == 2) none =
      selectFirstInstalled [("a", 1), ("b", 2)] (fun n => n == 2) :=
  ⟨⟨by decide, by decide,
    (selectTool_spec_refinement (α := Nat)).1 ⟨[("a", 1), ("b", 2)], some "a"⟩
      (fun n => n == 2) (some "b") (by decide) (by decide)⟩,
   (selectTool_spec_refinement (α := Nat)).2 ⟨[("a", 1), ("b", 2)], none⟩
     (fun n => n == 2) rfl⟩

/-- C1 counterexample: an empty-string override naming a registered and
installed adapter is skipped by the JS truthiness guard `preferred && …`, so
`selectTool` does not return that adapter as the claimed precedence demands:
with registry `[("x", 1), ("", 2)]`, everything installed and override `""`,
the code returns adapter `1` (first installed), not the registered and
installed adapter `2` bound to the override name. -/
theorem selectTool_empty_override_counterexample :
    mapGet? ([("x", 1), ("", 2)] : List (String × Nat)) "" = some 2 ∧
    (fun _ : Nat => true) 2 = true ∧
    Manager.selectTool ⟨[("x", 1), ("", 2)], none⟩ (fun _ => true) (some "") = some 1 ∧
    (some 1 : Option Nat) ≠ some 2 := by
  refine ⟨by decide, rfl, by decide, by decide⟩

/-- C6: with no installed adapter (any registry whose probes all report not
installed, so in particular the empty registry) `lint` returns the literal
no-tool failure — success `false`, empty warning and error arrays, stderr
`"No lint tool available"` — for every file list and override, and, being a
total function, never throws.  The error array is the `LintResult` field the
source names `lintErrors` (the spec's `errors`). -/
theorem lint_no_tool_available (m : LintManager) (files : List String)
    (ov : Option String) (h : ∀ p ∈ m.tools, p.2.installed = false) :
    LintManager.lint m files ov =
      { success := false, warnings := [], lintErrors := [],
        stderr := some "No lint tool available" } := by
  unfold LintManager.lint
  rw [selectTool_eq_none_of_uninstalled m LintTool.installed ov h]

theorem lint_no_tool_available_witness :
    (∀ p ∈ (([] : List (String × LintTool))), p.2.installed = false) ∧
    LintManager.lint ⟨[], none⟩ ["top.v"] none =
      { success := false, warnings := [], lintErrors := [],
        stderr := some "No lint tool available" } :=
  ⟨by simp, lint_no_tool_available ⟨[], none⟩ ["top.v"] none (by simp)⟩

/-- C2: the manager-level operations are total functions into their result
types (they never raise), and an exception thrown by the selected adapter's
category method — `lint`, `compile`, `simulate` or `synthesize` — is folded
into a result with `success := false` and the exception's message as the
`stderr` field. -/
theorem managers_fold_adapter_exceptions :
    (∀ (m : LintManager) (files : List String) (ov : Option String)
       (t : LintTool) (msg : String),
       m.selectTool LintTool.installed ov = some t →
       t.lint files = Except.error msg →
       LintManager.lint m files ov =
         { success := false, warnings := [], lintErrors := [], stderr := some msg }) ∧
    (∀ (m : SimulationManager) (files : List String) (tb : String)
       (args : Option (List String)) (ov : Option String)
       (t : SimulationTool) (msg : String),
       m.selectTool SimulationTool.installed ov = some t →
       t.compile files = Except.error msg →
       SimulationManager.simulate m files tb args ov =
         { success := false, passed := false, stderr := some msg }) ∧
    (∀ (m : SimulationManager) (files : List String) (tb : String)
       (args : Option (List String)) (ov : Option String)
       (t : SimulationTool) (cr : CompileResult) (msg : String),
       m.selectTool SimulationTool.installed ov = some t →
       t.compile files = Except.ok cr → cr.success = true →
       t.simulate tb args = Except.error msg →
       SimulationManager.simulate m files tb args ov =
         { success := false, passed := false, stderr := some msg }) ∧
    (∀ (m : SynthesisManager) (design : List String) (constraints : String)
       (ov : Option String) (t : SynthesisTool) (msg : String),
       m.selectTool SynthesisTool.installed ov = some t →
       t.synthesize design constraints = Except.error msg →
       SynthesisManager.synthesize m design constraints ov =
         { success := false, stderr := some msg }) := by
  refine ⟨?_, ?_, ?_, ?_⟩
  · intro m files ov t msg hsel hlint
    simp [LintManager.lint, hsel, hlint]
  · intro m files tb args ov t msg hsel hc
    simp [SimulationManager.simulate, SimulationManager.simulateBody, hsel, hc]
  · intro m files tb args ov t cr msg hsel hc hcs hsim
    simp [SimulationManager.simulate, SimulationManager.simulateBody, hsel, hc, hcs, hsim]
  · intro m design constraints ov t msg hsel hs
    simp [SynthesisManager.synthesize, SynthesisManager.synthesizeBody, hsel, hs]

theorem managers_fold_adapter_exceptions_witness :
    LintManager.lint
        ⟨[("l", { installed := true, lint := fun _ => Except.error "lint blew up" })], none⟩
        ["a.v"] none =
      { success := false, warnings := [], lintErrors := [], stderr := some "lint blew up" } ∧
    SimulationManager.simulate
        ⟨[("s", { installed := true,
                  compile := fun _ => Except.error "compile blew up",
                  simulate := fun _ _ => Except.ok { success := true, passed := true } })],
         none⟩
        ["a.v"] "tb.v" none none =
      { success := false, passed := false, stderr := some "compile blew up" } ∧
    SimulationManager.simulate
        ⟨[("s", { installed := true,
                  compile := fun _ => Except.ok { success := true },
                  simulate := fun _ _ => Except.error "sim blew up" })],
         none⟩
        ["a.v"] "tb.v" none none =
      { success := false, passed := false, stderr := some "sim blew up" } ∧
    SynthesisManager.synthesize
        ⟨[("y", { installed := true,
                  synthesize := fun _ _ => Except.error "synth blew up",
                  analyzeTiming := fun _ => Except.error "t",
                  estimatePPA := fun _ => Except.error "p" })],
         none⟩
        ["a.v"] "c.sdc" none =
      { success := false, stderr := some "synth blew up" } :=
  ⟨managers_fold_adapter_exceptions.1 _ ["a.v"] none _ "lint blew up" rfl rfl,
   managers_fold_adapter_exceptions.2.1 _ ["a.v"] "tb.v" none none _ "compile blew up" rfl rfl,
   managers_fold_adapter_exceptions.2.2.1 _ ["a.v"] "tb.v" none none _
     { success := true } "sim blew up" rfl rfl rfl rfl,
   managers_fold_adapter_exceptions.2.2.2 _ ["a.v"] "c.sdc" none _ "synth blew up" rfl rfl⟩

/-- C3: when the selected adapter's `compile` reports `success := false`, the
manager-level `simulate` returns the compile failure (carrying the compile
step's `errors` and `stderr`) immediately, and the adapter's simulate step is
never invoked: the try-block body is unchanged under an arbitrary replacement
of the adapter's `simulate` (and `collectCoverage`) functions. -/
theorem simulate_skips_sim_on_compile_failure :
    ∀ (m : SimulationManager) (files : List String) (tb : String)
      (args : Option (List String)) (ov : Option String)
      (t : SimulationTool) (cr : CompileResult)
      (f : String → Option (List String) → Except String SimulationResult)
      (cc : Option (Unit → Except String CoverageResult)),
      m.selectTool SimulationTool.installed ov = some t →
      t.compile files = Except.ok cr → cr.success = false →
      (SimulationManager.simulate m files tb args ov =
         { success := false, passed := false,
           errors := cr.errors, stderr := cr.stderr } ∧
       SimulationManager.simulateBody
           { t with simulate := f, collectCoverage := cc } files tb args =
         SimulationManager.simulateBody t files tb args) := by
  intro m files tb args ov t cr f cc hsel hc hcs
  constructor
  · simp [SimulationManager.simulate, SimulationManager.simulateBody, hsel, hc, hcs]
  · simp [SimulationManager.simulateBody, hc, hcs]

theorem simulate_skips_sim_on_compile_failure_witness :
    SimulationManager.simulate
        ⟨[("s", { installed := true,
                  compile := fun _ =>
                    Except.ok { success := false, errors := some ["syntax error"],
                                stderr := some "bad input" },
                  simulate := fun _ _ => Except.ok { success := true, passed := true } })],
         none⟩
        ["a.v"] "tb.v" none none =
      { success := false, passed := false,
        errors := some ["syntax error"], stderr := some "bad input" } :=
  (simulate_skips_sim_on_compile_failure
      ⟨[("s", { installed := true,
                compile := fun _ =>
                  Except.ok { success := false, errors := some ["syntax error"],
                              stderr := some "bad input" },
                simulate := fun _ _ => Except.ok { success := true, passed := true } })],
       none⟩
      ["a.v"] "tb.v" none none
      { installed := true,
        compile := fun _ =>
          Except.ok { success := false, errors := some ["syntax error"],
                      stderr := some "bad input" },
        simulate := fun _ _ => Except.ok { success := true, passed := true } }
      { success := false, errors := some ["syntax error"], stderr := some "bad input" }
      (fun _ _ => Except.ok { success := true, passed := true }) none
      rfl rfl rfl).1

/-- C5: when core synthesis succeeds with a (truthy) netlist, an exception in
the post-success enrichment is non-fatal: if `analyzeTiming` throws, the
manager returns the adapter's result unchanged (so `success` is still `true`
and `timing`/`ppa` stay as the adapter left them, i.e. unset); if
`analyzeTiming` succeeds and `estimatePPA` throws, only `timing` is filled in
and `ppa` stays unset; the manager, being total, lets no exception reach the
caller. -/
theorem synthesize_enrichment_nonfatal :
    ∀ (m : SynthesisManager) (design : List String) (constraints : String)
      (ov : Option String) (t : SynthesisTool) (r : SynthesisResult) (nl : String),
      m.selectTool SynthesisTool.installed ov = some t →
      t.synthesize design constraints = Except.ok r →
      r.success = true → r.netlist = some nl → nl ≠ "" →
      ((∀ e, t.analyzeTiming nl = Except.error e →
          SynthesisManager.synthesize m design constraints ov = r) ∧
       (∀ tr e, t.analyzeTiming nl = Except.ok tr →
          t.estimatePPA nl = Except.error e →
          SynthesisManager.synthesize m design constraints ov =
            { r with timing := some tr })) := by
  intro m design constraints ov t r nl hsel hs hsucc hnl hne
  have hbne : (nl != "") = true := bne_iff_ne.mpr hne
  constructor
  · intro e ht
    simp [SynthesisManager.synthesize, SynthesisManager.synthesizeBody,
      hsel, hs, hsucc, hnl, hbne, ht]
  · intro tr e ht hp
    simp [SynthesisManager.synthesize, SynthesisManager.synthesizeBody,
      hsel, hs, hsucc, hnl, hbne, ht, hp]

theorem synthesize_enrichment_nonfatal_witness :
    SynthesisManager.synthesize
        ⟨[("y", { installed := true,
                  synthesize := fun _ _ =>
                    Except.ok { success := true, netlist := some "out.v" },
                  analyzeTiming := fun _ => Except.error "timing blew up",
                  estimatePPA := fun _ => Except.error "ppa blew up" })],
         none⟩
        ["d.v"] "c.sdc" none =
      { success := true, netlist := some "out.v" } :=
  (synthesize_enrichment_nonfatal
      ⟨[("y", { installed := true,
                synthesize := fun _ _ =>
                  Except.ok { success := true, netlist := some "out.v" },
                analyzeTiming := fun _ => Except.error "timing blew up",
                estimatePPA := fun _ => Except.error "ppa blew up" })],
       none⟩
      ["d.v"] "c.sdc" none
      { installed := true,
        synthesize := fun _ _ =>
          Except.ok { success := true, netlist := some "out.v" },
        analyzeTiming := fun _ => Except.error "timing blew up",
        estimatePPA := fun _ => Except.error "ppa blew up" }
      { success := true, netlist := some "out.v" } "out.v"
      rfl rfl rfl rfl (by decide)).1 "timing blew up" rfl

theorem foldl_diags_none (pl : List Char → Option (Sum LintWarning LintError)) :
    ∀ (lines : List (List Char)), (∀ l ∈ lines, pl l = none) →
    ∀ (acc : List LintWarning × List LintError),
      lines.foldl
        (fun acc line =>
          match pl line with
          | some (Sum.inl w) => (acc.1 ++ [w], acc.2)
          | some (Sum.inr e) => (acc.1, acc.2 ++ [e])
          | none => acc)
        acc = acc := by
  intro lines
  induction lines with
  | nil => intro _ acc; rfl
  | cons l ls ih =>
    intro h acc
    have hl : pl l = none := h l (List.mem_cons_self _ _)
    simp only [List.foldl_cons, hl]
    exact ih (fun x hx => h x (List.mem_cons_of_mem _ hx)) acc

/-- C7: the Verilator output line `%Warning-WIDTH: top.v:10:5: message text`
parses to exactly one diagnostic — file `top.v`, line 10, column 5, severity
warning, code `WIDTH`, message `message text` — and any line on which the line
grammar fails yields zero diagnostics, so an output all of whose lines are
unmatched produces empty warning and error lists. -/
theorem verilator_parse_line_scenario :
    VerilatorLint.parseLine "%Warning-WIDTH: top.v:10:5: message text".data =
      some (Sum.inl
        { file := "top.v", line := 10, column := some 5, code := "WIDTH",
          message := "message text", severity := Severity.warning }) ∧
    VerilatorLint.parseLintOutput
        { success := true,
          stdout := some "%Warning-WIDTH: top.v:10:5: message text",
          stderr := some "" } =
      { success := true,
        warnings := [{ file := "top.v", line := 10, column := some 5, code := "WIDTH",
                       message := "message text", severity := Severity.warning }],
        lintErrors := [],
        stdout := some "%Warning-WIDTH: top.v:10:5: message text",
        stderr := some "" } ∧
    (∀ r : ToolResult,
       (∀ l ∈ splitOnNl ((r.stdout.getD "").data ++ (r.stderr.getD "").data),
          VerilatorLint.parseLine l = none) →
       (VerilatorLint.parseLintOutput r).warnings = [] ∧
       (VerilatorLint.parseLintOutput r).lintErrors = []) := by
  refine ⟨by decide, by decide, ?_⟩
  intro r h
  have hfold :
      foldDiags VerilatorLint.parseLine
        (splitOnNl ((r.stdout.getD "").data ++ (r.stderr.getD "").data)) = ([], []) := by
    unfold foldDiags
    exact foldl_diags_none VerilatorLint.parseLine _ h ([], [])
  constructor <;> simp [VerilatorLint.parseLintOutput, hfold]

theorem verilator_parse_line_scenario_witness :
    (∀ l ∈ splitOnNl ((some "garbage output" |>.getD "").data ++ ((some "" : Option String).getD "").data),
       VerilatorLint.parseLine l = none) ∧
    (VerilatorLint.parseLintOutput
        { success := false, exitCode := some 1,
          stdout := some "garbage output", stderr := some "" }).warnings = [] ∧
    (VerilatorLint.parseLintOutput
        { success := false, exitCode := some 1,
          stdout := some "garbage output", stderr := some "" }).lintErrors = [] :=
  ⟨by decide,
   (verilator_parse_line_scenario.2.2
      { success := false, exitCode := some 1,
        stdout := some "garbage output", stderr := some "" } (by decide)).1,
   (verilator_parse_line_scenario.2.2
      { success := false, exitCode := some 1,
        stdout := some "garbage output", stderr := some "" } (by decide)).2⟩

theorem length_beq_zero_eq_isEmpty {β : Type} (l : List β) :
    (l.length == 0) = l.isEmpty := by
  cases l <;> rfl

/-- C10: for each lint adapter the parsed `LintResult` has `success := true`
exactly when its parsed error list is empty; the result depends only on the
raw `stdout`/`stderr` text, never on the process `success`/`exitCode`/`errors`
fields; and a non-zero-exit run whose output matches no grammar line parses to
`success := true` with empty warning and error lists. -/
theorem lint_success_iff_no_parsed_errors :
    (∀ r : ToolResult,
       (VerilatorLint.parseLintOutput r).success =
         (VerilatorLint.parseLintOutput r).lintErrors.isEmpty ∧
       (SlangLint.parseLintOutput r).success =
         (SlangLint.parseLintOutput r).lintErrors.isEmpty ∧
       (VeribleLint.parseLintOutput r).success =
         (VeribleLint.parseLintOutput r).lintErrors.isEmpty) ∧
    (∀ (r : ToolResult) (b : Bool) (ec : Option Int) (es : Option (List String)),
       VerilatorLint.parseLintOutput { r with success := b, exitCode := ec, errors := es } =
         VerilatorLint.parseLintOutput r ∧
       SlangLint.parseLintOutput { r with success := b, exitCode := ec, errors := es } =
         SlangLint.parseLintOutput r ∧
       VeribleLint.parseLintOutput { r with success := b, exitCode := ec, errors := es } =
         VeribleLint.parseLintOutput r) ∧
    (VerilatorLint.parseLintOutput
        { success := false, exitCode := some 1,
          stdout := some "tool crashed without diagnostics", stderr := some "" } =
      { success := true, warnings := [], lintErrors := [],
        stdout := some "tool crashed without diagnostics", stderr := some "" } ∧
     SlangLint.parseLintOutput
        { success := false, exitCode := some 1,
          stdout := some "tool crashed without diagnostics", stderr := some "" } =
      { success := true, warnings := [], lintErrors := [],
        stdout := some "tool crashed without diagnostics", stderr := some "" } ∧
     VeribleLint.parseLintOutput
        { success := false, exitCode := some 1,
          stdout := some "tool crashed without diagnostics", stderr := some "" } =
      { success := true, warnings := [], lintErrors := [],
        stdout := some "tool crashed without diagnostics", stderr := some "" }) := by
  refine ⟨?_, ?_, by decide, by decide, by decide⟩
  · intro r
    refine ⟨?_, ?_, ?_⟩ <;>
      simp [VerilatorLint.parseLintOutput, SlangLint.parseLintOutput,
        VeribleLint.parseLintOutput, length_beq_zero_eq_isEmpty]
  · intro r b ec es
    exact ⟨rfl, rfl, rfl⟩
